import Mathlib

/-!
# Exoframe server: authentication protocol and deploy/rollout orchestrator

A shallow embedding of `src/auth/index.js` (challenge-response login, deploy
tokens, the `verifyJWT` gate) and of `src/routes/deploy.js` (template
resolution inside `deploy`, one pass of `scheduleCleanup`), followed by the
properties established about them.

JavaScript values are embedded as a JSON-shaped datatype.  Library functions
(`jsonwebtoken`, `sshpk`) and helpers of the repository that live outside the
embedded files (`util.compareNames`, `getProjectConfig`, the Loki collections)
are parameters or small list models, each marked where it is introduced.
-/

namespace Exoframe

/-! ## JavaScript values -/

mutual
/-- JSON-shaped JavaScript values, as they arrive in request bodies and in
decoded token payloads.  Numbers are kept as integers: the program tests
numbers for being zero and for equality only, and fractional numbers are left
out of the embedding. -/
inductive JsVal where
  | undefined
  | null
  | bool (b : Bool)
  | num (n : Int)
  | str (s : String)
  | arr (items : JsList)
  | obj (fields : JsFields)
/-- Elements of an array value. -/
inductive JsList where
  | nil
  | cons (v : JsVal) (rest : JsList)
/-- Own properties of an object value, in insertion order. -/
inductive JsFields where
  | nil
  | cons (k : String) (v : JsVal) (rest : JsFields)
end

deriving instance DecidableEq for JsVal, JsList, JsFields

deriving instance DecidableEq for Except

/-- Property lookup among the own properties of an object. -/
def JsFields.lookup (k : String) : JsFields → Option JsVal
  | .nil => none
  | .cons k2 v rest => if k2 = k then some v else rest.lookup k

/-- JavaScript truthiness (`!!v`). -/
def JsVal.truthy : JsVal → Bool
  | .undefined => false
  | .null => false
  | .bool b => b
  | .num n => n != 0
  | .str s => s != ""
  | .arr _ => true
  | .obj _ => true

/-- Property read `v[k]` for the property names the program uses (`user`,
`token`, `requestId`, `tokenName`, `username`, `loggedIn`, `deploy`): reading
from `undefined` or `null` throws a `TypeError`, an object yields its own
property or `undefined`, every other value yields `undefined`. -/
def JsVal.getProp (v : JsVal) (k : String) : Except String JsVal :=
  match v with
  | .undefined => .error ("TypeError: Cannot read property '" ++ k ++ "' of undefined")
  | .null => .error ("TypeError: Cannot read property '" ++ k ++ "' of null")
  | .obj fields => .ok ((fields.lookup k).getD .undefined)
  | _ => .ok .undefined

/-- JavaScript `s.replace(pat, rep)` with a string pattern: only the first
occurrence is replaced. -/
def replaceChars (pat rep : List Char) : List Char → List Char
  | [] => if pat = [] then rep else []
  | c :: cs =>
    if pat.isPrefixOf (c :: cs) then rep ++ (c :: cs).drop pat.length
    else c :: replaceChars pat rep cs

/-- String form of `replaceChars`. -/
def jsReplace (s pat rep : String) : String :=
  String.mk (replaceChars pat.data rep.data s.data)

/-- JavaScript `s.split(sep)` for a one-character separator. -/
def splitChars (sep : Char) : List Char → List (List Char)
  | [] => [[]]
  | c :: cs =>
    if c = sep then [] :: splitChars sep cs
    else
      match splitChars sep cs with
      | [] => [[c]]
      | l :: ls => (c :: l) :: ls

/-- String form of `splitChars`. -/
def jsSplit (s : String) (sep : Char) : List String :=
  (splitChars sep s.data).map String.mk

/-! ## External libraries and stores used by `auth/index.js` -/

/-- Signature algorithms named in the source. -/
inductive Alg where
  | HS256
  | RS256
  deriving DecidableEq

/-- The library calls of `auth/index.js`, taken as parameters:
`jwt.sign(payload, key, {algorithm})`, `jwt.verify(token, key, {algorithms})`
(an `error` is the thrown or rejected error's text) and
`sshpk.parseKey(key).toString('pem')`. -/
structure Crypto where
  jwtSign : JsVal → String → Alg → String
  jwtVerify : JsVal → String → Alg → Except String JsVal
  parseKey : String → Except String String

/-- A stored login challenge, as inserted by `GET /login`. -/
structure LoginRequest where
  phrase : String
  uid : String
  deriving DecidableEq

/-- A record of the token collection, as inserted by `POST /deployToken`. -/
structure TokenDoc where
  tokenName : JsVal
  user : JsVal
  deriving DecidableEq

/-- Modelled from the spec: the Loki collection behind `getTokenCollection()`
(module `db`, outside the embedded files).  The spec describes it as an
allowlist of `(tokenName, user)` records with simple read/insert/remove
operations and duplicates allowed; it is a list in insertion order. -/
abbrev TokenCollection := List TokenDoc

/-- Modelled from the spec: `collection.findOne(The query tokenName, user)`
returns the first record with the same `tokenName` and `user`. -/
def TokenCollection.findOne (c : TokenCollection) (tokenName user : JsVal) : Option TokenDoc :=
  c.find? (fun d => decide (d.tokenName = tokenName) && decide (d.user = user))

/-- Modelled from the spec: `collection.insert(doc)` appends one record. -/
def TokenCollection.insert (c : TokenCollection) (d : TokenDoc) : TokenCollection :=
  c ++ [d]

/-- Modelled from the spec: `collection.remove(doc)` deletes that one record. -/
def TokenCollection.remove (c : TokenCollection) (d : TokenDoc) : TokenCollection :=
  c.erase d

/-- Modelled from the spec: `reqCollection.findOne(uid: requestId)` on the
challenge store returns the first stored challenge whose `uid` is the given
value. -/
def findLoginRequest (reqCollection : List LoginRequest) (requestId : JsVal) : Option LoginRequest :=
  reqCollection.find? (fun d => decide (JsVal.str d.uid = requestId))

/-- An HTTP reply: status code and body (`none` for an empty body). -/
structure Reply where
  code : Nat
  body : Option JsVal
  deriving DecidableEq

/-- The body `(error: msg)`. -/
def errorBody (msg : String) : JsVal :=
  .obj (.cons "error" (.str msg) .nil)

/-- The body `(token: t)`. -/
def tokenBody (t : String) : JsVal :=
  .obj (.cons "token" (.str t) .nil)

/-! ## `auth/index.js` -/

/-- Source `verifyWithKey`: parse the key, verify the token with it under
RS256, compare the decoded payload with the phrase; any failure gives
`false`. -/
def verifyWithKey (lib : Crypto) (key : String) (token : JsVal) (phrase : String) : Bool :=
  match lib.parseKey key with
  | .error _ => false
  | .ok pubKey =>
    match lib.jwtVerify token pubKey .RS256 with
    | .error _ => false
    | .ok decoded => decide (decoded = .str phrase)

/-- Payload of a session token, `(loggedIn: true, user)`. -/
def sessionClaims (user : JsVal) : JsVal :=
  .obj (.cons "loggedIn" (.bool true) (.cons "user" user .nil))

/-- Payload of a deploy token, `(loggedIn: true, user, tokenName, deploy: true)`. -/
def deployClaims (user tokenName : JsVal) : JsVal :=
  .obj (.cons "loggedIn" (.bool true) (.cons "user" user
    (.cons "tokenName" tokenName (.cons "deploy" (.bool true) .nil))))

/-- The non-empty lines of the authorized-keys file:
`file.toString().split('\n').filter(k => k && k.length > 0)`. -/
def publicKeysOf (file : String) : List String :=
  (jsSplit file '\n').filter (fun k => k != "" && decide (k.length > 0))

/-- Handler of `POST /login`.  `readFile` is the outcome of reading the
authorized-keys file (`error` carries `e.toString()`); the result is `error`
when the handler itself throws (destructuring an absent body). -/
def postLogin (lib : Crypto) (privateKey : String) (reqCollection : List LoginRequest)
    (readFile : Except String String) (body : JsVal) : Except String Reply :=
  match body.getProp "user", body.getProp "token", body.getProp "requestId" with
  | .ok user, .ok token, .ok requestId =>
    let loginReq := findLoginRequest reqCollection requestId
    if !token.truthy || !user.truthy then
      .ok ⟨401, some (errorBody "No token given!")⟩
    else
      match loginReq with
      | none => .ok ⟨401, some (errorBody "Login request not found!")⟩
      | some req =>
        match readFile with
        | .error e => .ok ⟨405, some (errorBody ("Could not read public keys file! " ++ e))⟩
        | .ok publicKeysFile =>
          let publicKeys := publicKeysOf publicKeysFile
          let res := publicKeys.map (fun key => verifyWithKey lib key token req.phrase)
          if !res.any (fun r => r == true) then
            .ok ⟨401, some (errorBody "Not authorized!")⟩
          else
            let replyToken := lib.jwtSign (sessionClaims user) privateKey .HS256
            .ok ⟨200, some (tokenBody replyToken)⟩
  | .error e, _, _ => .error e
  | _, .error e, _ => .error e
  | _, _, .error e => .error e

/-- Handler of `POST /deployToken`: sign the deploy token, then insert the
record `(tokenName, user.username)`.  `user` is `request.user`. -/
def postDeployToken (lib : Crypto) (privateKey : String) (tokens : TokenCollection)
    (user body : JsVal) : Except String (Reply × TokenCollection) :=
  match body.getProp "tokenName" with
  | .error e => .error e
  | .ok tokenName =>
    let token := lib.jwtSign (deployClaims user tokenName) privateKey .HS256
    match user.getProp "username" with
    | .error e => .error e
    | .ok username =>
      .ok (⟨200, some (tokenBody token)⟩, tokens.insert ⟨tokenName, username⟩)

/-- Body of the reply of `DELETE /deployToken` when nothing was removed. -/
def notRemovedBody : JsVal :=
  .obj (.cons "removed" (.bool false) (.cons "reason" (.str "Token does not exist") .nil))

/-- Handler of `DELETE /deployToken`. -/
def deleteDeployToken (tokens : TokenCollection) (user body : JsVal) :
    Except String (Reply × TokenCollection) :=
  match body.getProp "tokenName" with
  | .error e => .error e
  | .ok tokenName =>
    match user.getProp "username" with
    | .error e => .error e
    | .ok username =>
      match tokens.findOne tokenName username with
      | none => .ok (⟨200, some notRemovedBody⟩, tokens)
      | some existingToken => .ok (⟨204, none⟩, tokens.remove existingToken)

/-- How a call of `verifyJWT` ends: `done()`, `done(error)`, or an exception
thrown out of the function without `done` being called. -/
inductive Outcome where
  | done
  | doneErr (e : String)
  | thrown (e : String)
  deriving DecidableEq

/-- Result of `verifyJWT`: the value assigned to `request.user` (`none` when
the assignment was not reached) and how the call ended. -/
structure VerifyResult where
  requestUser : Option JsVal
  outcome : Outcome
  deriving DecidableEq

/-- The decorator `verifyJWT`.  `authorization` is
`request.headers.authorization` (`none` for `undefined`). -/
def verifyJWT (lib : Crypto) (privateKey : String) (tokens : TokenCollection)
    (authorization : Option String) : VerifyResult :=
  match authorization with
  | none => ⟨none, .doneErr "No authorization header provided!"⟩
  | some bearer =>
    if bearer = "" then ⟨none, .doneErr "No authorization header provided!"⟩
    else
      let token := jsReplace bearer "Bearer " ""
      if token = "" || token.length = 0 then ⟨none, .doneErr "No token provided!"⟩
      else
        match lib.jwtVerify (.str token) privateKey .HS256 with
        | .error e => ⟨none, .doneErr e⟩
        | .ok decodedToken =>
          if !decodedToken.truthy then ⟨none, .doneErr "Decoded token invalid!"⟩
          else
            match decodedToken.getProp "user", decodedToken.getProp "loggedIn",
                decodedToken.getProp "deploy", decodedToken.getProp "tokenName" with
            | .ok user, .ok loggedIn, .ok deploy, .ok tokenName =>
              let checkUser : VerifyResult :=
                if !user.truthy || !loggedIn.truthy then
                  ⟨some user, .doneErr "User not found or authorization expired!"⟩
                else ⟨some user, .done⟩
              if deploy.truthy then
                match user.getProp "username" with
                | .error e => ⟨some user, .thrown e⟩
                | .ok username =>
                  match tokens.findOne tokenName username with
                  | none => ⟨some user, .doneErr "Deployment token not found!"⟩
                  | some _ => checkUser
              else checkUser
            | .error e, _, _, _ => ⟨none, .thrown e⟩
            | _, .error e, _, _ => ⟨none, .thrown e⟩
            | _, _, .error e, _ => ⟨none, .thrown e⟩
            | _, _, _, .error e => ⟨none, .thrown e⟩

/-! ## `routes/deploy.js`: the deploy pipeline -/

/-- The project config as far as `deploy` reads it: the optional template
name. -/
structure ProjectConfig where
  template : Option String
  deriving DecidableEq

/-- A progress event `(message, level)`. -/
structure Event where
  message : String
  level : String
  deriving DecidableEq

/-- State of `resultStream`: the events written so far and whether the stream
has been ended. -/
structure Stream where
  events : List Event
  ended : Bool
  deriving DecidableEq

/-- Modelled from the spec: `util.writeStatus(stream, event)` (module `util`,
outside the embedded files) writes one structured progress event to the
stream. -/
def writeStatus (s : Stream) (e : Event) : Stream :=
  ⟨s.events ++ [e], s.ended⟩

/-- The call `resultStream.end('')`. -/
def Stream.end (s : Stream) : Stream :=
  ⟨s.events, true⟩

/-- A registered template.  `checkTemplate` is the outcome of awaiting
`t.checkTemplate(templateProps)`: the truthiness of the value, or the error it
rejected with.  `executeTemplate` maps the stream state to the state the
template leaves and to its outcome (`error` for a rejection). -/
structure Template where
  name : String
  checkTemplate : Except String Bool
  executeTemplate : Stream → Stream × Except String Unit

/-- A call made on a template, recorded by template name. -/
inductive Call where
  | check (name : String)
  | execute (name : String)
  deriving DecidableEq

/-- What one run of `deploy` leaves behind: the stream, the calls made on
templates in order, and whether the returned promise resolved (`ok`) or
rejected (`error`). -/
structure DeployResult where
  stream : Stream
  calls : List Call
  outcome : Except String Unit
  deriving DecidableEq

/-- The `for` loop of `deploy`: predicates are awaited one after the other and
the loop stops at the first truthy answer; a rejecting predicate aborts the
loop with its error. -/
def checkLoop : List Template → List Call × Except String (Option Template)
  | [] => ([], .ok none)
  | t :: ts =>
    match t.checkTemplate with
    | .error e => ([.check t.name], .error e)
    | .ok true => ([.check t.name], .ok (some t))
    | .ok false => ((Call.check t.name) :: (checkLoop ts).1, (checkLoop ts).2)

/-- The text of `config.template` inside a template literal. -/
def templateText : Option String → String
  | none => "undefined"
  | some name => name

/-- The tail of `deploy` once the template lookup is over. -/
def finishDeploy (config : ProjectConfig) (resultStream : Stream) (calls : List Call) :
    Option Template → DeployResult
  | none =>
    ⟨(writeStatus resultStream
        ⟨"Build failed! Couldn't find template: " ++ templateText config.template ++ "!",
          "error"⟩).end,
      calls, .ok ()⟩
  | some template =>
    ⟨(template.executeTemplate resultStream).1, calls ++ [.execute template.name],
      (template.executeTemplate resultStream).2⟩

/-- The test `config.template && config.template.length > 0`. -/
def hasTemplateName (config : ProjectConfig) : Bool :=
  match config.template with
  | none => false
  | some name => name != "" && decide (name.length > 0)

/-- Source `deploy`.  `getProjectConfig` is the outcome of
`getProjectConfig(folder)` (`error` when it throws), `templates` is
`getTemplates()`, `resultStream` the stream state at the call. -/
def deploy (getProjectConfig : Except String ProjectConfig) (templates : List Template)
    (resultStream : Stream) : DeployResult :=
  match getProjectConfig with
  | .error e => ⟨resultStream, [], .error e⟩
  | .ok config =>
    if hasTemplateName config then
      finishDeploy config resultStream []
        (templates.find? (fun t => some t.name == config.template))
    else
      match checkLoop templates with
      | (calls, .error e) => ⟨resultStream, calls, .error e⟩
      | (calls, .ok template) => finishDeploy config resultStream calls template

/-! ## `routes/deploy.js`: retiring the previous generation -/

/-- A container as reported by `docker.listContainers`. -/
structure Container where
  Id : String
  Labels : List (String × String)
  State : String
  Status : String
  deriving DecidableEq

/-- The read `c.Labels[key]` (`none` for `undefined`). -/
def Container.label (c : Container) (key : String) : Option String :=
  c.Labels.lookup key

/-- JavaScript `s.includes(pat)` on character lists. -/
def includesChars (pat : List Char) : List Char → Bool
  | [] => pat.isEmpty
  | c :: cs => pat.isPrefixOf (c :: cs) || includesChars pat cs

/-- The test `Status.toLowerCase().includes('up')`.  Lower-casing is that of
the ASCII letters, which is all the test for `up` can observe. -/
def statusUp (status : String) : Bool :=
  includesChars ['u', 'p'] (status.data.map Char.toLower)

/-- Arguments of one `scheduleCleanup` call. -/
structure CleanupArgs where
  username : String
  project : String
  existing : List Container
  deriving DecidableEq

/-- What one cleanup pass does: the containers handed to `removeContainer`,
the arguments of the further `scheduleCleanup` call if one is made, whether a
prune is scheduled, and whether the callback was aborted by a rejected
`await` (the listing or the removals) before reaching the re-schedule. -/
structure PassResult where
  toRemove : List Container
  next : Option CleanupArgs
  prune : Bool
  aborted : Bool
  deriving DecidableEq

/-- The containers of the listing that belong to the user and the project. -/
def runningOf (username project : String) (containers : List Container) : List Container :=
  containers.filter (fun c =>
    c.label "exoframe.user" == some username && c.label "exoframe.project" == some project)

/-- The removal test of one old container: the first listed container with a
matching name must exist, be in state `running` and have an `up` status. -/
def shouldRemove (compareNames : Option String → Option String → Bool)
    (running : List Container) (container : Container) : Bool :=
  match running.find? (fun runningContainer =>
      compareNames (container.label "exoframe.name") (runningContainer.label "exoframe.name")) with
  | none => false
  | some newInstance => newInstance.State == "running" && statusUp newInstance.Status

/-- Whether an awaited call resolved. -/
def settled (r : Except String Unit) : Bool :=
  match r with
  | .ok _ => true
  | .error _ => false

/-- The callback of `scheduleCleanup`, after the wait: one cleanup pass.
`listContainers` is the outcome of `await docker.listContainers()`,
`removeContainer c` the outcome of the promise `removeContainer(c)` (`error`
for a rejection); `compareNames` is `util.compareNames` (module `util`,
outside the embedded files), applied to label values that may be `undefined`;
`autoprune` is the server config flag read by `schedulePrune`.  A rejected
listing aborts the callback before anything is removed.  Otherwise every
selected container is handed to `removeContainer`; if one of these promises
rejects, `await Promise.all(...)` rejects and the callback is aborted before
the re-schedule and the prune. -/
def cleanupPass (compareNames : Option String → Option String → Bool) (autoprune : Bool)
    (removeContainer : Container → Except String Unit) (args : CleanupArgs)
    (listContainers : Except String (List Container)) : PassResult :=
  match listContainers with
  | .error _ => ⟨[], none, false, true⟩
  | .ok containers =>
    let running := runningOf args.username args.project containers
    let toRemove := args.existing.filter (shouldRemove compareNames running)
    if toRemove.all (fun c => settled (removeContainer c)) then
      let next :=
        if toRemove.length ≠ args.existing.length then
          some ⟨args.username, args.project,
            args.existing.filter (fun c => (toRemove.find? (fun rc => rc.Id == c.Id)).isNone)⟩
        else none
      ⟨toRemove, next, autoprune, false⟩
    else ⟨toRemove, none, false, true⟩

/-- What the runtime answers during one pass: the listing and the outcome of
each removal. -/
structure Poll where
  listContainers : Except String (List Container)
  removeContainer : Container → Except String Unit

/-- What a run of passes leaves: every container handed to `removeContainer`,
the arguments of the pass still pending if the polls ran out before the loop
was done, and whether the loop ended by an aborted pass. -/
structure CleanupRun where
  removed : List Container
  pending : Option CleanupArgs
  aborted : Bool
  deriving DecidableEq

/-- Source `scheduleCleanup` over time: the passes run one after the other,
pass `i` seeing the `i`-th poll.  A pass that schedules nothing ends the
loop. -/
def scheduleCleanup (compareNames : Option String → Option String → Bool) (autoprune : Bool)
    (args : CleanupArgs) : List Poll → CleanupRun
  | [] => ⟨[], some args, false⟩
  | poll :: later =>
    match (cleanupPass compareNames autoprune poll.removeContainer args
        poll.listContainers).next with
    | none =>
      ⟨(cleanupPass compareNames autoprune poll.removeContainer args
          poll.listContainers).toRemove, none,
        (cleanupPass compareNames autoprune poll.removeContainer args
          poll.listContainers).aborted⟩
    | some nextArgs =>
      ⟨(cleanupPass compareNames autoprune poll.removeContainer args
            poll.listContainers).toRemove ++
          (scheduleCleanup compareNames autoprune nextArgs later).removed,
        (scheduleCleanup compareNames autoprune nextArgs later).pending,
        (scheduleCleanup compareNames autoprune nextArgs later).aborted⟩

/-! ## Example inputs -/

/-- A library stub that knows one HS256 token: `jwtSign` always returns `tok`,
`jwtVerify` decodes `tok` under the key `"secret"` to `claims` and rejects
everything else, and no SSH key parses. -/
def fixedCrypto (tok : String) (claims : JsVal) : Crypto where
  jwtSign := fun _ _ _ => tok
  jwtVerify := fun t key alg =>
    if t = .str tok ∧ key = "secret" ∧ alg = .HS256 then .ok claims
    else .error "invalid signature"
  parseKey := fun _ => .error "not a key"

/-- A library stub for the login exchange: the only key that parses is the
line `ssh-rsa KEY1`, the only token that verifies under it is `"signed"`,
whose payload is the phrase of challenge `42`; `jwtSign` returns
`"session"`. -/
def demoCrypto : Crypto where
  jwtSign := fun _ _ _ => "session"
  jwtVerify := fun t key alg =>
    if t = .str "signed" ∧ key = "PEM1" ∧ alg = .RS256 then .ok (.str "hello exoframe 42")
    else .error "invalid signature"
  parseKey := fun k => if k = "ssh-rsa KEY1" then .ok "PEM1" else .error "not a key"

/-- A library stub for issuing one deploy token: `jwtSign` answers `"tok.ci"`
for the payload `(loggedIn: true, user: adminUser, tokenName: "ci",
deploy: true)` under the key `"secret"` and `"tok.other"` for every other
payload; `jwtVerify` decodes `"tok.ci"` to that payload with the `iat`
property the library adds on signing, and rejects everything else. -/
def issuingCrypto : Crypto where
  jwtSign := fun payload key alg =>
    if payload = .obj (.cons "loggedIn" (.bool true) (.cons "user"
          (.obj (.cons "username" (.str "admin") .nil))
          (.cons "tokenName" (.str "ci") (.cons "deploy" (.bool true) .nil))))
        ∧ key = "secret" ∧ alg = .HS256 then "tok.ci"
    else "tok.other"
  jwtVerify := fun t key alg =>
    if t = .str "tok.ci" ∧ key = "secret" ∧ alg = .HS256 then
      .ok (.obj (.cons "loggedIn" (.bool true) (.cons "user"
        (.obj (.cons "username" (.str "admin") .nil))
        (.cons "tokenName" (.str "ci") (.cons "deploy" (.bool true)
          (.cons "iat" (.num 1700000000) .nil))))))
    else .error "invalid signature"
  parseKey := fun _ => .error "not a key"

/-- The user object `(username: "admin")`. -/
def adminUser : JsVal :=
  .obj (.cons "username" (.str "admin") .nil)

/-- Deploy-token claims for `adminUser` and token name `"ci"` that carry no
`loggedIn` property. -/
def claimsNoLoggedIn : JsVal :=
  .obj (.cons "user" adminUser (.cons "tokenName" (.str "ci") (.cons "deploy" (.bool true) .nil)))

/-- Claims `(loggedIn: true, deploy: true)` without a `user` property. -/
def claimsNoUser : JsVal :=
  .obj (.cons "loggedIn" (.bool true) (.cons "deploy" (.bool true) .nil))

/-- The request body `(tokenName: "ci")`. -/
def ciBody : JsVal :=
  .obj (.cons "tokenName" (.str "ci") .nil)

/-- Labels of a container of user `admin`, project `proj`, name `app`. -/
def appLabels : List (String × String) :=
  [("exoframe.user", "admin"), ("exoframe.project", "proj"), ("exoframe.name", "app")]

/-- The container of the previous generation. -/
def oldApp : Container :=
  ⟨"c-old", appLabels, "running", "Up 2 hours"⟩

/-- A replacement that is listed but restarting. -/
def newStarting : Container :=
  ⟨"c-new1", appLabels, "restarting", "Restarting (1) 3 seconds ago"⟩

/-- An old container of the same user and project whose name is `api`. -/
def oldApi : Container :=
  ⟨"c-api", [("exoframe.user", "admin"), ("exoframe.project", "proj"),
    ("exoframe.name", "api")], "running", "Up 2 hours"⟩

/-- A replacement that is running and up. -/
def newUp : Container :=
  ⟨"c-new2", appLabels, "running", "Up 5 seconds"⟩

/-- A template that writes one progress event, ends the stream and
resolves. -/
def okTemplate (name : String) (matches_ : Except String Bool) : Template where
  name := name
  checkTemplate := matches_
  executeTemplate := fun s => ((writeStatus s ⟨name ++ " started", "info"⟩).end, .ok ())

/-- A template whose `executeTemplate` rejects without touching the stream. -/
def failingExecute : Template where
  name := "node"
  checkTemplate := .ok true
  executeTemplate := fun s => (s, .error "build failed")

/-- The stream as `deploy` receives it: nothing written, not ended. -/
def freshStream : Stream :=
  ⟨[], false⟩

/-! ## Auxiliary definitions used in statements -/

/-- Total property read: `undefined` where `getProp` throws. -/
def JsVal.field (v : JsVal) (k : String) : JsVal :=
  match v.getProp k with
  | .ok x => x
  | .error _ => .undefined

/-- The body of a `POST /login` request, `(user, token, requestId)`; an absent
property is the value `undefined`. -/
def loginBody (user token requestId : JsVal) : JsVal :=
  .obj (.cons "user" user (.cons "token" token (.cons "requestId" requestId .nil)))

/-- Reference for template resolution, following the spec: with a non-empty
`config.template`, the registered template of exactly that name; otherwise
the first template in list order whose predicate answers `true`. -/
def resolveReference (config : ProjectConfig) (templates : List Template) : Option Template :=
  match config.template with
  | some name =>
    if name ≠ "" then templates.find? (fun t => t.name == name)
    else templates.find? (fun t => t.checkTemplate == .ok true)
  | none => templates.find? (fun t => t.checkTemplate == .ok true)

/-- Reference for the predicates consulted, following the spec: none when the
template is named in the config; otherwise the predicates of the templates in
list order up to and including the first that answers `true`, and no later
one. -/
def referenceChecks (config : ProjectConfig) (templates : List Template) : List Call :=
  let upToMatch :=
    (templates.takeWhile (fun t => t.checkTemplate != .ok true)).map (fun t => Call.check t.name)
      ++ ((templates.find? (fun t => t.checkTemplate == .ok true)).toList.map
        (fun t => Call.check t.name))
  match config.template with
  | some name => if name ≠ "" then [] else upToMatch
  | none => upToMatch

/-- Reference for `deploy` after the config is loaded, following the spec:
execute the resolved template; if resolution fails, write one `level: error`
event, end the stream and execute nothing. -/
def referenceDeploy (config : ProjectConfig) (templates : List Template) (s : Stream) :
    DeployResult :=
  match resolveReference config templates with
  | some t =>
    ⟨(t.executeTemplate s).1, referenceChecks config templates ++ [.execute t.name],
      (t.executeTemplate s).2⟩
  | none =>
    ⟨⟨s.events ++ [⟨"Build failed! Couldn't find template: " ++ templateText config.template
        ++ "!", "error"⟩], true⟩,
      referenceChecks config templates, .ok ()⟩

/-! ## Lemmas on the string helpers and the collections -/

theorem replaceChars_prefix (p : Char) (ps t : List Char) :
    replaceChars (p :: ps) [] ((p :: ps) ++ t) = t := by
  have h : (p :: ps).isPrefixOf (p :: (ps ++ t)) = true := by
    rw [List.isPrefixOf_iff_prefix]
    exact ⟨t, rfl⟩
  show replaceChars (p :: ps) [] (p :: (ps ++ t)) = t
  rw [replaceChars, if_pos h]
  simp

theorem jsReplace_bearer (token : String) :
    jsReplace ("Bearer " ++ token) "Bearer " "" = token := by
  unfold jsReplace
  have h : ("Bearer " ++ token).data = 'B' :: ['e', 'a', 'r', 'e', 'r', ' '] ++ token.data := by
    rw [String.data_append]
  have hp : ("Bearer " : String).data = 'B' :: ['e', 'a', 'r', 'e', 'r', ' '] := rfl
  have he : ("" : String).data = [] := rfl
  rw [h, hp, he, replaceChars_prefix]

theorem bearer_ne_empty (token : String) : ("Bearer " ++ token) ≠ "" := by
  intro h
  have h2 := congrArg String.length h
  rw [String.length_append] at h2
  have h3 : ("Bearer " : String).length = 7 := by decide
  have h4 : ("" : String).length = 0 := by decide
  omega

theorem getProp_of_truthy (c : JsVal) (k : String) (h : c.truthy = true) :
    c.getProp k = .ok (c.field k) := by
  cases c <;> simp_all [JsVal.truthy, JsVal.getProp, JsVal.field]

theorem findOne_eq_none_iff (c : TokenCollection) (tokenName user : JsVal) :
    c.findOne tokenName user = none ↔ ∀ d ∈ c, ¬ (d.tokenName = tokenName ∧ d.user = user) := by
  simp [TokenCollection.findOne, List.find?_eq_none]

theorem findOne_isSome_iff (c : TokenCollection) (tokenName user : JsVal) :
    (∃ d, c.findOne tokenName user = some d) ↔ ∃ d ∈ c, d.tokenName = tokenName ∧ d.user = user := by
  constructor
  · rintro ⟨d, hd⟩
    have hm := List.mem_of_find?_eq_some hd
    have hp := List.find?_some hd
    simp at hp
    exact ⟨d, hm, hp⟩
  · rintro ⟨d, hm, hp⟩
    cases hf : c.findOne tokenName user with
    | none => exact absurd hp ((findOne_eq_none_iff c tokenName user).1 hf d hm)
    | some x => exact ⟨x, rfl⟩

theorem length_eq_zero_iff_empty (s : String) : s.length = 0 ↔ s = "" := by
  constructor
  · intro h
    have hd : s.data = [] := List.length_eq_zero.1 h
    cases s
    simp_all
  · rintro rfl
    rfl

/-- What `verifyJWT` does once the header is `Bearer <token>`, the token is
non-empty and its signature verifies to a truthy payload `c`. -/
theorem verifyJWT_verified (lib : Crypto) (privateKey : String) (tokens : TokenCollection)
    (token : String) (c : JsVal) (htok : token ≠ "")
    (hv : lib.jwtVerify (.str token) privateKey .HS256 = .ok c) (hc : c.truthy = true) :
    verifyJWT lib privateKey tokens (some ("Bearer " ++ token)) =
      (if (c.field "deploy").truthy then
        match (c.field "user").getProp "username" with
        | .error e => ⟨some (c.field "user"), .thrown e⟩
        | .ok username =>
          match tokens.findOne (c.field "tokenName") username with
          | none => ⟨some (c.field "user"), .doneErr "Deployment token not found!"⟩
          | some _ =>
            if !(c.field "user").truthy || !(c.field "loggedIn").truthy then
              ⟨some (c.field "user"), .doneErr "User not found or authorization expired!"⟩
            else ⟨some (c.field "user"), .done⟩
      else
        if !(c.field "user").truthy || !(c.field "loggedIn").truthy then
          ⟨some (c.field "user"), .doneErr "User not found or authorization expired!"⟩
        else ⟨some (c.field "user"), .done⟩) := by
  have hlen : ¬ token.length = 0 := fun h => htok ((length_eq_zero_iff_empty token).1 h)
  unfold verifyJWT
  simp only [bearer_ne_empty, jsReplace_bearer, htok, hlen, hv, hc, getProp_of_truthy,
    if_false, decide_False, Bool.or_self, Bool.not_true, Bool.false_eq_true]

/-- A token whose signature does not verify is answered with `done(e)`. -/
theorem verifyJWT_bad_signature (lib : Crypto) (privateKey : String) (tokens : TokenCollection)
    (token e : String) (htok : token ≠ "")
    (hv : lib.jwtVerify (.str token) privateKey .HS256 = .error e) :
    verifyJWT lib privateKey tokens (some ("Bearer " ++ token)) = ⟨none, .doneErr e⟩ := by
  have hlen : ¬ token.length = 0 := fun h => htok ((length_eq_zero_iff_empty token).1 h)
  unfold verifyJWT
  simp only [bearer_ne_empty, jsReplace_bearer, htok, hlen, hv,
    if_false, decide_False, Bool.or_self, Bool.false_eq_true]

/-- A verified payload that is falsy is answered with `done(error)`. -/
theorem verifyJWT_falsy_payload (lib : Crypto) (privateKey : String) (tokens : TokenCollection)
    (token : String) (c : JsVal) (htok : token ≠ "")
    (hv : lib.jwtVerify (.str token) privateKey .HS256 = .ok c) (hc : c.truthy = false) :
    verifyJWT lib privateKey tokens (some ("Bearer " ++ token)) =
      ⟨none, .doneErr "Decoded token invalid!"⟩ := by
  have hlen : ¬ token.length = 0 := fun h => htok ((length_eq_zero_iff_empty token).1 h)
  unfold verifyJWT
  simp only [bearer_ne_empty, jsReplace_bearer, htok, hlen, hv, hc,
    if_false, decide_False, Bool.or_self, Bool.false_eq_true, Bool.not_false, if_true]

theorem verifyJWT_empty_token (lib : Crypto) (privateKey : String) (tokens : TokenCollection) :
    verifyJWT lib privateKey tokens (some ("Bearer " ++ "")) = ⟨none, .doneErr "No token provided!"⟩ := by
  unfold verifyJWT
  simp only [bearer_ne_empty, jsReplace_bearer, if_false, decide_True, Bool.true_or, if_true]

/-! ## Deploy tokens: acceptance, issue and revocation -/

/-- C1 (counterexample): the token decodes under the server secret to claims
carrying `deploy: true` and the registry holds the record `("ci", "admin")`
of those claims, yet `verifyJWT` does not accept it: the claims have no
`loggedIn`. -/
theorem verifyJWT_deploy_iff_counterexample :
    ¬ ((verifyJWT (fixedCrypto "tok" claimsNoLoggedIn) "secret"
          [⟨.str "ci", .str "admin"⟩] (some "Bearer tok")).outcome = .done ↔
        ((fixedCrypto "tok" claimsNoLoggedIn).jwtVerify (.str "tok") "secret" .HS256
            = .ok claimsNoLoggedIn ∧
          claimsNoLoggedIn.field "deploy" = .bool true ∧
          ∃ d ∈ ([⟨.str "ci", .str "admin"⟩] : TokenCollection),
            d.tokenName = claimsNoLoggedIn.field "tokenName" ∧
            d.user = (claimsNoLoggedIn.field "user").field "username")) := by
  intro h
  have hacc := h.2 ⟨by decide, by decide, ⟨.str "ci", .str "admin"⟩, List.mem_singleton.2 rfl,
    by decide, by decide⟩
  revert hacc
  decide

/-- C1 (amended): for a token whose claims carry a truthy `deploy`,
`verifyJWT` ends with `done()` exactly when the token is non-empty, its HS256
signature verifies under the server secret, the claims carry a truthy `user`
and a truthy `loggedIn`, and the registry contains a record with the claims'
`(tokenName, user.username)`. -/
theorem verifyJWT_deploy_accept_iff (lib : Crypto) (privateKey : String)
    (tokens : TokenCollection) (token : String)
    (hdeploy : ∀ c, lib.jwtVerify (.str token) privateKey .HS256 = .ok c →
      (c.field "deploy").truthy = true) :
    (verifyJWT lib privateKey tokens (some ("Bearer " ++ token))).outcome = .done ↔
      token ≠ "" ∧ ∃ c, lib.jwtVerify (.str token) privateKey .HS256 = .ok c ∧
        (c.field "user").truthy = true ∧ (c.field "loggedIn").truthy = true ∧
        ∃ d ∈ tokens, d.tokenName = c.field "tokenName" ∧
          d.user = (c.field "user").field "username" := by
  by_cases htok : token = ""
  · subst htok
    rw [verifyJWT_empty_token]
    simp
  · cases hv : lib.jwtVerify (.str token) privateKey .HS256 with
    | error e =>
      rw [verifyJWT_bad_signature lib privateKey tokens token e htok hv]
      simp
    | ok c =>
      have hd := hdeploy c hv
      have hc : c.truthy = true := by
        cases c <;> simp_all [JsVal.truthy, JsVal.field, JsVal.getProp]
      rw [verifyJWT_verified lib privateKey tokens token c htok hv hc, if_pos hd]
      by_cases hu : (c.field "user").truthy = true
      · rw [getProp_of_truthy _ _ hu]
        cases hf : tokens.findOne (c.field "tokenName") ((c.field "user").field "username") with
        | none =>
          have hnone := (findOne_eq_none_iff _ _ _).1 hf
          simp only [hf, htok, ne_eq, not_false_eq_true, true_and, Except.ok.injEq,
            exists_eq_left']
          constructor
          · intro h
            cases h
          · rintro ⟨_, _, d, hm, hp⟩
            exact absurd hp (hnone d hm)
        | some x =>
          have hsome := (findOne_isSome_iff _ _ _).1 ⟨x, hf⟩
          by_cases hl : (c.field "loggedIn").truthy = true
          · simp [hf, hu, hl, htok, hsome]
          · simp [hf, hu, hl, htok]
      · have hrhs : ¬ (token ≠ "" ∧ ∃ c2, (Except.ok c : Except String JsVal) = Except.ok c2 ∧
            (c2.field "user").truthy = true ∧ (c2.field "loggedIn").truthy = true ∧
            ∃ d ∈ tokens, d.tokenName = c2.field "tokenName" ∧
              d.user = (c2.field "user").field "username") := by
          rintro ⟨_, c2, hc2, hu2, _⟩
          cases hc2
          exact hu hu2
        refine iff_of_false ?_ hrhs
        cases hg : (c.field "user").getProp "username" with
        | error e => simp
        | ok username =>
          cases hf : tokens.findOne (c.field "tokenName") username with
          | none => simp [hf]
          | some x => simp [hf, hu]

/-- C1 (witness): the amended statement at a concrete token, where both sides
hold. -/
theorem verifyJWT_deploy_accept_iff_witness :
    (∀ c, (fixedCrypto "tok" (deployClaims adminUser (.str "ci"))).jwtVerify
        (.str "tok") "secret" .HS256 = .ok c → (c.field "deploy").truthy = true) ∧
    ((verifyJWT (fixedCrypto "tok" (deployClaims adminUser (.str "ci"))) "secret"
        [⟨.str "ci", .str "admin"⟩] (some ("Bearer " ++ "tok"))).outcome = .done ↔
      "tok" ≠ "" ∧ ∃ c, (fixedCrypto "tok" (deployClaims adminUser (.str "ci"))).jwtVerify
          (.str "tok") "secret" .HS256 = .ok c ∧
        (c.field "user").truthy = true ∧ (c.field "loggedIn").truthy = true ∧
        ∃ d ∈ ([⟨.str "ci", .str "admin"⟩] : TokenCollection),
          d.tokenName = c.field "tokenName" ∧
          d.user = (c.field "user").field "username") :=
  have h : ∀ c, (fixedCrypto "tok" (deployClaims adminUser (.str "ci"))).jwtVerify
      (.str "tok") "secret" .HS256 = .ok c → (c.field "deploy").truthy = true := by
    intro c hc
    have : c = deployClaims adminUser (.str "ci") := by
      simp [fixedCrypto] at hc
      exact hc.symm
    subst this
    decide
  ⟨h, verifyJWT_deploy_accept_iff _ _ _ _ h⟩

theorem deployClaims_fields (user tokenName : JsVal) :
    (deployClaims user tokenName).truthy = true ∧
    (deployClaims user tokenName).field "user" = user ∧
    (deployClaims user tokenName).field "loggedIn" = .bool true ∧
    (deployClaims user tokenName).field "deploy" = .bool true ∧
    (deployClaims user tokenName).field "tokenName" = tokenName := by
  simp [deployClaims, JsVal.truthy, JsVal.field, JsVal.getProp, JsFields.lookup]

theorem findOne_insert_fresh (tokens : TokenCollection) (tokenName user : JsVal)
    (hfresh : ∀ d ∈ tokens, ¬ (d.tokenName = tokenName ∧ d.user = user)) :
    (tokens.insert ⟨tokenName, user⟩).findOne tokenName user = some ⟨tokenName, user⟩ := by
  have hnone := (findOne_eq_none_iff tokens tokenName user).2 hfresh
  unfold TokenCollection.findOne at hnone
  simp [TokenCollection.findOne, TokenCollection.insert, List.find?_append, hnone]

theorem remove_insert_fresh (tokens : TokenCollection) (tokenName user : JsVal)
    (hfresh : ∀ d ∈ tokens, ¬ (d.tokenName = tokenName ∧ d.user = user)) :
    (tokens.insert ⟨tokenName, user⟩).remove ⟨tokenName, user⟩ = tokens := by
  have hnot : (⟨tokenName, user⟩ : TokenDoc) ∉ tokens := fun hm => hfresh _ hm ⟨rfl, rfl⟩
  simp [TokenCollection.insert, TokenCollection.remove, List.erase_append_right _ hnot]

theorem findOne_insert_isSome (tokens : TokenCollection) (tokenName user : JsVal) :
    ∃ d, (tokens.insert ⟨tokenName, user⟩).findOne tokenName user = some d := by
  apply (findOne_isSome_iff _ _ _).2
  exact ⟨⟨tokenName, user⟩, by simp [TokenCollection.insert], rfl, rfl⟩

/-- C2 (counterexample): the registry already holds a record `("ci", "admin")`;
the deploy token issued for the same user and name is accepted, and after one
revoke of that name, which replies 204, the same token is still accepted. -/
theorem issue_revoke_verify_counterexample :
    postDeployToken issuingCrypto "secret" [⟨.str "ci", .str "admin"⟩] adminUser ciBody
      = .ok (⟨200, some (tokenBody "tok.ci")⟩,
          [⟨.str "ci", .str "admin"⟩, ⟨.str "ci", .str "admin"⟩]) ∧
    verifyJWT issuingCrypto "secret" [⟨.str "ci", .str "admin"⟩, ⟨.str "ci", .str "admin"⟩]
        (some "Bearer tok.ci")
      = ⟨some adminUser, .done⟩ ∧
    deleteDeployToken [⟨.str "ci", .str "admin"⟩, ⟨.str "ci", .str "admin"⟩] adminUser ciBody
      = .ok (⟨204, none⟩, [⟨.str "ci", .str "admin"⟩]) ∧
    verifyJWT issuingCrypto "secret" [⟨.str "ci", .str "admin"⟩] (some "Bearer tok.ci")
      = ⟨some adminUser, .done⟩ := by
  decide

/-- C2 (amended): for an authenticated (truthy) user and a request body
carrying `tokenName`, with a library whose `jwtVerify` decodes the signed
deploy token to claims `c` that agree with the signed payload on `user`,
`loggedIn`, `deploy` and `tokenName` (further properties such as `iat` are
free): `POST /deployToken` returns the signed token and `verifyJWT` of it
succeeds; and provided the registry held no record with that
`(tokenName, user.username)` before the issue, a following
`DELETE /deployToken` replies 204, restores the registry, and `verifyJWT` of
the same token then ends with `done(Error('Deployment token not found!'))`. -/
theorem issue_revoke_verify (lib : Crypto) (privateKey : String) (tokens : TokenCollection)
    (user tokenName body c : JsVal)
    (hu : user.truthy = true)
    (hb : body.getProp "tokenName" = .ok tokenName)
    (hne : lib.jwtSign (deployClaims user tokenName) privateKey .HS256 ≠ "")
    (hrt : lib.jwtVerify (.str (lib.jwtSign (deployClaims user tokenName) privateKey .HS256))
      privateKey .HS256 = .ok c)
    (hfields : ∀ k ∈ ["user", "loggedIn", "deploy", "tokenName"],
      c.field k = (deployClaims user tokenName).field k) :
    postDeployToken lib privateKey tokens user body
      = .ok (⟨200, some (tokenBody (lib.jwtSign (deployClaims user tokenName) privateKey .HS256))⟩,
          tokens.insert ⟨tokenName, user.field "username"⟩) ∧
    verifyJWT lib privateKey (tokens.insert ⟨tokenName, user.field "username"⟩)
        (some ("Bearer " ++ lib.jwtSign (deployClaims user tokenName) privateKey .HS256))
      = ⟨some user, .done⟩ ∧
    ((∀ d ∈ tokens, ¬ (d.tokenName = tokenName ∧ d.user = user.field "username")) →
      deleteDeployToken (tokens.insert ⟨tokenName, user.field "username"⟩) user body
        = .ok (⟨204, none⟩, tokens) ∧
      verifyJWT lib privateKey tokens
          (some ("Bearer " ++ lib.jwtSign (deployClaims user tokenName) privateKey .HS256))
        = ⟨some user, .doneErr "Deployment token not found!"⟩) := by
  obtain ⟨_, hdu, hdl, hdd, hdn⟩ := deployClaims_fields user tokenName
  have hcu : c.field "user" = user := (hfields "user" (by simp)).trans hdu
  have hcl : c.field "loggedIn" = .bool true := (hfields "loggedIn" (by simp)).trans hdl
  have hcd : c.field "deploy" = .bool true := (hfields "deploy" (by simp)).trans hdd
  have hcn : c.field "tokenName" = tokenName := (hfields "tokenName" (by simp)).trans hdn
  have hct : c.truthy = true := by
    cases c <;> simp_all [JsVal.truthy, JsVal.field, JsVal.getProp]
  have hgu := getProp_of_truthy user "username" hu
  have hver := verifyJWT_verified lib privateKey
  have htrue : (JsVal.bool true).truthy = true := rfl
  refine ⟨?_, ?_, ?_⟩
  · simp [postDeployToken, hb, hgu]
  · obtain ⟨d, hd⟩ := findOne_insert_isSome tokens tokenName (user.field "username")
    rw [hver _ _ _ hne hrt hct]
    simp [hcu, hcl, hcd, hcn, hgu, hd, hu, htrue]
  · intro hfresh
    constructor
    · simp [deleteDeployToken, hb, hgu, findOne_insert_fresh _ _ _ hfresh,
        remove_insert_fresh _ _ _ hfresh]
    · have hnone := (findOne_eq_none_iff _ _ _).2 hfresh
      rw [hver _ _ _ hne hrt hct]
      simp [hcu, hcd, hcn, hgu, hnone, htrue]

/-- C2 (witness): the amended statement for `adminUser`, token name `"ci"` and
an empty registry, with a library that signs by payload and whose decoded
claims carry an added `iat`. -/
theorem issue_revoke_verify_witness :
    (postDeployToken issuingCrypto "secret" [] adminUser ciBody
      = .ok (⟨200, some (tokenBody
            (issuingCrypto.jwtSign (deployClaims adminUser (.str "ci")) "secret" .HS256))⟩,
          (([] : TokenCollection)).insert ⟨.str "ci", adminUser.field "username"⟩) ∧
    verifyJWT issuingCrypto "secret"
        ((([] : TokenCollection)).insert ⟨.str "ci", adminUser.field "username"⟩)
        (some ("Bearer " ++
          issuingCrypto.jwtSign (deployClaims adminUser (.str "ci")) "secret" .HS256))
      = ⟨some adminUser, .done⟩) ∧
    deleteDeployToken ((([] : TokenCollection)).insert ⟨.str "ci", adminUser.field "username"⟩)
        adminUser ciBody = .ok (⟨204, none⟩, []) ∧
    verifyJWT issuingCrypto "secret" []
        (some ("Bearer " ++
          issuingCrypto.jwtSign (deployClaims adminUser (.str "ci")) "secret" .HS256))
      = ⟨some adminUser, .doneErr "Deployment token not found!"⟩ :=
  have h := issue_revoke_verify issuingCrypto "secret" [] adminUser (.str "ci") ciBody
    (.obj (.cons "loggedIn" (.bool true) (.cons "user"
      (.obj (.cons "username" (.str "admin") .nil))
      (.cons "tokenName" (.str "ci") (.cons "deploy" (.bool true)
        (.cons "iat" (.num 1700000000) .nil))))))
    (by decide) (by decide) (by decide) (by decide) (by decide)
  ⟨⟨h.1, h.2.1⟩, h.2.2 (by intro d hd; cases hd)⟩

/-! ## `verifyJWT` on malformed claims -/

/-- C8 (failing inputs): with verified claims `(loggedIn: true, deploy: true)`
and no `user`, `verifyJWT` throws a `TypeError` while reading `user.username`
and never calls `done`; with verified claims that carry `deploy: true` and a
user but no `loggedIn`, and no matching record, it reports the deploy-token
error, not the malformed-claims error. -/
theorem verifyJWT_malformed_deploy_claims :
    verifyJWT (fixedCrypto "tok" claimsNoUser) "secret" [] (some "Bearer tok")
      = ⟨some .undefined, .thrown "TypeError: Cannot read property 'username' of undefined"⟩ ∧
    verifyJWT (fixedCrypto "tok" claimsNoLoggedIn) "secret" [] (some "Bearer tok")
      = ⟨some adminUser, .doneErr "Deployment token not found!"⟩ := by
  decide

/-- The part of the malformed-claims rule that the code does implement: a
verified token without a truthy `deploy`, whose claims lack a truthy `user`
or a truthy `loggedIn`, ends with the malformed-claims error. -/
theorem verifyJWT_malformed_session_claims (lib : Crypto) (privateKey : String)
    (tokens : TokenCollection) (token : String) (c : JsVal) (htok : token ≠ "")
    (hv : lib.jwtVerify (.str token) privateKey .HS256 = .ok c) (hc : c.truthy = true)
    (hd : (c.field "deploy").truthy = false)
    (hbad : (c.field "user").truthy = false ∨ (c.field "loggedIn").truthy = false) :
    verifyJWT lib privateKey tokens (some ("Bearer " ++ token))
      = ⟨some (c.field "user"), .doneErr "User not found or authorization expired!"⟩ := by
  rw [verifyJWT_verified lib privateKey tokens token c htok hv hc]
  rcases hbad with h | h <;> simp [hd, h]

/-- On the deploy path a verified payload without `user` makes `verifyJWT`
throw: `user.username` is read before the malformed-claims check. -/
theorem verifyJWT_throws_without_user (lib : Crypto) (privateKey : String)
    (tokens : TokenCollection) (token : String) (c : JsVal) (htok : token ≠ "")
    (hv : lib.jwtVerify (.str token) privateKey .HS256 = .ok c) (hc : c.truthy = true)
    (hd : (c.field "deploy").truthy = true) (hu : c.field "user" = .undefined) :
    verifyJWT lib privateKey tokens (some ("Bearer " ++ token))
      = ⟨some .undefined,
          .thrown "TypeError: Cannot read property 'username' of undefined"⟩ := by
  rw [verifyJWT_verified lib privateKey tokens token c htok hv hc]
  simp [hd, hu, JsVal.getProp]

/-! ## Revoking an absent deploy token -/

/-- C9: for an authenticated (truthy) user and a body carrying `tokenName`,
when the registry has no record `(tokenName, user.username)` the handler of
`DELETE /deployToken` raises no error, replies 200 with
`(removed: false, reason)` and leaves the registry unchanged; hence after any
revoke that left no matching record, revoking again gives the same reply. -/
theorem deleteDeployToken_absent (tokens : TokenCollection) (user tokenName body : JsVal)
    (hu : user.truthy = true) (hb : body.getProp "tokenName" = .ok tokenName) :
    ((∀ d ∈ tokens, ¬ (d.tokenName = tokenName ∧ d.user = user.field "username")) →
      deleteDeployToken tokens user body = .ok (⟨200, some notRemovedBody⟩, tokens)) ∧
    (∀ r tokens2, deleteDeployToken tokens user body = .ok (r, tokens2) →
      (∀ d ∈ tokens2, ¬ (d.tokenName = tokenName ∧ d.user = user.field "username")) →
      deleteDeployToken tokens2 user body = .ok (⟨200, some notRemovedBody⟩, tokens2)) := by
  have hgu := getProp_of_truthy user "username" hu
  have key : ∀ ts : TokenCollection,
      (∀ d ∈ ts, ¬ (d.tokenName = tokenName ∧ d.user = user.field "username")) →
      deleteDeployToken ts user body = .ok (⟨200, some notRemovedBody⟩, ts) := by
    intro ts hts
    have hnone := (findOne_eq_none_iff _ _ _).2 hts
    simp [deleteDeployToken, hb, hgu, hnone]
  exact ⟨key tokens, fun _ tokens2 _ h2 => key tokens2 h2⟩

/-- C9 (witness): revoking `"ci"` twice from a registry holding one such
record: the second revoke is the no-op reply. -/
theorem deleteDeployToken_absent_witness :
    deleteDeployToken [⟨.str "ci", .str "admin"⟩] adminUser ciBody = .ok (⟨204, none⟩, []) ∧
    deleteDeployToken [] adminUser ciBody = .ok (⟨200, some notRemovedBody⟩, []) :=
  ⟨by decide,
    (deleteDeployToken_absent [⟨.str "ci", .str "admin"⟩] adminUser (.str "ci") ciBody
      (by decide) (by decide)).2 ⟨204, none⟩ [] (by decide) (by intro d hd; cases hd)⟩

/-! ## Challenge-response login -/

theorem postLogin_loginBody (lib : Crypto) (privateKey : String) (reqs : List LoginRequest)
    (readFile : Except String String) (user token requestId : JsVal) :
    postLogin lib privateKey reqs readFile (loginBody user token requestId) =
      if !token.truthy || !user.truthy then
        .ok ⟨401, some (errorBody "No token given!")⟩
      else
        match findLoginRequest reqs requestId with
        | none => .ok ⟨401, some (errorBody "Login request not found!")⟩
        | some req =>
          match readFile with
          | .error e => .ok ⟨405, some (errorBody ("Could not read public keys file! " ++ e))⟩
          | .ok file =>
            if !(publicKeysOf file).any (fun key => verifyWithKey lib key token req.phrase) then
              .ok ⟨401, some (errorBody "Not authorized!")⟩
            else
              .ok ⟨200, some (tokenBody (lib.jwtSign (sessionClaims user) privateKey .HS256))⟩ := by
  simp [postLogin, loginBody, JsVal.getProp, JsFields.lookup, List.any_map]

theorem publicKeys_any_iff (file : String) (f : String → Bool) :
    (publicKeysOf file).any f = true ↔ ∃ k ∈ jsSplit file '\n', k ≠ "" ∧ f k = true := by
  simp only [publicKeysOf, List.any_eq_true, List.mem_filter]
  constructor
  · rintro ⟨k, ⟨hm, hk⟩, hf⟩
    refine ⟨k, hm, ?_, hf⟩
    simp at hk
    exact hk.1
  · rintro ⟨k, hm, hk, hf⟩
    refine ⟨k, ⟨hm, ?_⟩, hf⟩
    have hlen : k.length ≠ 0 := fun h => hk ((length_eq_zero_iff_empty k).1 h)
    simp [hk]
    omega

theorem findLoginRequest_eq_none_iff (reqs : List LoginRequest) (requestId : JsVal) :
    findLoginRequest reqs requestId = none ↔ ∀ d ∈ reqs, JsVal.str d.uid ≠ requestId := by
  simp [findLoginRequest, List.find?_eq_none]

/-- C3: the replies of `POST /login` on a body `(user, token, requestId)`,
where an absent property is a falsy one.  (1) A falsy `user` or `token` gives
401 `No token given!`, whatever the stores hold.  With both truthy: (2) no
stored challenge with `uid = requestId` gives 401 `Login request not found!`;
with `req` the stored challenge found, (3) an unreadable key file gives 405,
(4) a readable file none of whose non-empty lines verifies the token against
`req.phrase` gives 401 `Not authorized!`, and (5) a file with at least one
verifying non-empty line gives the session token.  (6) A session token is
issued exactly in case (5).  (7) Two key files with a verifying non-empty
line in the one exactly when in the other get the same reply, so the order of
the lines and blank or unparsable lines do not matter. -/
theorem postLogin_replies (lib : Crypto) (privateKey : String) (reqs : List LoginRequest)
    (readFile : Except String String) (user token requestId : JsVal) :
    ((user.truthy = false ∨ token.truthy = false) →
      postLogin lib privateKey reqs readFile (loginBody user token requestId)
        = .ok ⟨401, some (errorBody "No token given!")⟩) ∧
    (user.truthy = true → token.truthy = true →
      ((∀ d ∈ reqs, JsVal.str d.uid ≠ requestId) →
        postLogin lib privateKey reqs readFile (loginBody user token requestId)
          = .ok ⟨401, some (errorBody "Login request not found!")⟩) ∧
      (∀ req, findLoginRequest reqs requestId = some req →
        (∀ e, readFile = .error e →
          postLogin lib privateKey reqs readFile (loginBody user token requestId)
            = .ok ⟨405, some (errorBody ("Could not read public keys file! " ++ e))⟩) ∧
        (∀ file, readFile = .ok file →
          ((¬ ∃ k ∈ jsSplit file '\n', k ≠ "" ∧ verifyWithKey lib k token req.phrase = true) →
            postLogin lib privateKey reqs readFile (loginBody user token requestId)
              = .ok ⟨401, some (errorBody "Not authorized!")⟩) ∧
          ((∃ k ∈ jsSplit file '\n', k ≠ "" ∧ verifyWithKey lib k token req.phrase = true) →
            postLogin lib privateKey reqs readFile (loginBody user token requestId)
              = .ok ⟨200, some (tokenBody
                  (lib.jwtSign (sessionClaims user) privateKey .HS256))⟩)))) ∧
    ((∃ t, postLogin lib privateKey reqs readFile (loginBody user token requestId)
          = .ok ⟨200, some (tokenBody t)⟩) ↔
      (user.truthy = true ∧ token.truthy = true ∧
        ∃ req, findLoginRequest reqs requestId = some req ∧
          ∃ file, readFile = .ok file ∧
            ∃ k ∈ jsSplit file '\n', k ≠ "" ∧ verifyWithKey lib k token req.phrase = true)) ∧
    (∀ file1 file2 : String,
      (∀ phrase, (∃ k ∈ jsSplit file1 '\n', k ≠ "" ∧ verifyWithKey lib k token phrase = true) ↔
        (∃ k ∈ jsSplit file2 '\n', k ≠ "" ∧ verifyWithKey lib k token phrase = true)) →
      postLogin lib privateKey reqs (.ok file1) (loginBody user token requestId)
        = postLogin lib privateKey reqs (.ok file2) (loginBody user token requestId)) := by
  refine ⟨?_, ?_, ?_, ?_⟩
  · intro h
    rw [postLogin_loginBody]
    rcases h with h | h <;> simp [h]
  · intro hu ht
    refine ⟨?_, ?_⟩
    · intro hnone
      rw [postLogin_loginBody]
      simp [hu, ht, (findLoginRequest_eq_none_iff reqs requestId).2 hnone]
    · intro req hreq
      refine ⟨?_, ?_⟩
      · intro e he
        rw [postLogin_loginBody]
        simp [hu, ht, hreq, he]
      · intro file hfile
        refine ⟨?_, ?_⟩
        · intro hno
          have hany : (publicKeysOf file).any
              (fun key => verifyWithKey lib key token req.phrase) = false := by
            rw [Bool.eq_false_iff]
            intro h
            exact hno ((publicKeys_any_iff file _).1 h)
          rw [postLogin_loginBody]
          simp only [hu, ht, hreq, hfile, hany]
          rfl
        · intro hyes
          have hany := (publicKeys_any_iff file
            (fun key => verifyWithKey lib key token req.phrase)).2 hyes
          rw [postLogin_loginBody]
          simp only [hu, ht, hreq, hfile, hany]
          rfl
  · rw [postLogin_loginBody]
    by_cases hu : user.truthy = true
    swap
    · simp [hu, errorBody, tokenBody]
    by_cases ht : token.truthy = true
    swap
    · simp [ht, errorBody, tokenBody]
    cases hreq : findLoginRequest reqs requestId with
    | none => simp [hu, ht, errorBody, tokenBody]
    | some req =>
      cases readFile with
      | error e => simp [hu, ht, errorBody, tokenBody]
      | ok file =>
        by_cases hany : (publicKeysOf file).any
            (fun key => verifyWithKey lib key token req.phrase) = true
        · have hex := (publicKeys_any_iff file _).1 hany
          simp only [hu, ht, hany]
          constructor
          · intro _
            exact ⟨trivial, trivial, req, rfl, file, rfl, hex⟩
          · intro _
            exact ⟨_, rfl⟩
        · have hno : ¬ ∃ k ∈ jsSplit file '\n', k ≠ "" ∧
              verifyWithKey lib k token req.phrase = true :=
            fun h => hany ((publicKeys_any_iff file _).2 h)
          have hany2 : (publicKeysOf file).any
              (fun key => verifyWithKey lib key token req.phrase) = false := by
            simpa using hany
          simp only [hu, ht, hany2]
          constructor
          · rintro ⟨t, h⟩
            simp [errorBody, tokenBody] at h
          · rintro ⟨_, _, req2, hreq2, file2, hfile2, hex⟩
            cases hreq2
            cases hfile2
            exact absurd hex hno
  · intro file1 file2 hsame
    rw [postLogin_loginBody, postLogin_loginBody]
    have hany : ∀ phrase, (publicKeysOf file1).any
        (fun key => verifyWithKey lib key token phrase) =
        (publicKeysOf file2).any (fun key => verifyWithKey lib key token phrase) := by
      intro phrase
      rw [Bool.eq_iff_iff, publicKeys_any_iff, publicKeys_any_iff]
      exact hsame phrase
    cases hreq : findLoginRequest reqs requestId with
    | none => rfl
    | some req => simp only [hany req.phrase]

/-- C3 (witness): a key file with a blank line, an unparsable line and the
authorized key last; the token signed for challenge `42` logs in. -/
theorem postLogin_replies_witness :
    postLogin demoCrypto "secret" [⟨"hello exoframe 42", "42"⟩]
        (.ok "\ngarbage\nssh-rsa KEY1\n") (loginBody adminUser (.str "signed") (.str "42"))
      = .ok ⟨200, some (tokenBody
          (demoCrypto.jwtSign (sessionClaims adminUser) "secret" .HS256))⟩ :=
  ((postLogin_replies demoCrypto "secret" [⟨"hello exoframe 42", "42"⟩]
      (.ok "\ngarbage\nssh-rsa KEY1\n") adminUser (.str "signed") (.str "42")).2.1
      (by decide) (by decide)).2 ⟨"hello exoframe 42", "42"⟩ (by decide) |>.2
    "\ngarbage\nssh-rsa KEY1\n" rfl |>.2
    ⟨"ssh-rsa KEY1", by decide, by decide, by decide⟩

/-- C10: two `POST /login` requests with the same `token` and `requestId`,
run against the same challenge store and key file, with any two truthy `user`
values, end alike: either both are accepted, each with a session token signed
over exactly `(loggedIn: true, user)` for its own `user` value, or both are
rejected with the same status and error. -/
theorem postLogin_user_independent (lib : Crypto) (privateKey : String)
    (reqs : List LoginRequest) (readFile : Except String String)
    (user1 user2 token requestId : JsVal)
    (h1 : user1.truthy = true) (h2 : user2.truthy = true) :
    (postLogin lib privateKey reqs readFile (loginBody user1 token requestId)
        = .ok ⟨200, some (tokenBody (lib.jwtSign
            (.obj (.cons "loggedIn" (.bool true) (.cons "user" user1 .nil)))
            privateKey .HS256))⟩ ∧
      postLogin lib privateKey reqs readFile (loginBody user2 token requestId)
        = .ok ⟨200, some (tokenBody (lib.jwtSign
            (.obj (.cons "loggedIn" (.bool true) (.cons "user" user2 .nil)))
            privateKey .HS256))⟩) ∨
    (∃ code msg,
      postLogin lib privateKey reqs readFile (loginBody user1 token requestId)
        = .ok ⟨code, some (errorBody msg)⟩ ∧
      postLogin lib privateKey reqs readFile (loginBody user2 token requestId)
        = .ok ⟨code, some (errorBody msg)⟩) := by
  rw [postLogin_loginBody, postLogin_loginBody]
  by_cases ht : token.truthy = true
  swap
  · exact Or.inr ⟨401, "No token given!", by simp [ht], by simp [ht]⟩
  cases hreq : findLoginRequest reqs requestId with
  | none => exact Or.inr ⟨401, "Login request not found!", by simp [ht, h1], by simp [ht, h2]⟩
  | some req =>
    cases readFile with
    | error e =>
      exact Or.inr ⟨405, "Could not read public keys file! " ++ e,
        by simp [ht, h1], by simp [ht, h2]⟩
    | ok file =>
      cases hany : (publicKeysOf file).any (fun key => verifyWithKey lib key token req.phrase) with
      | false =>
        exact Or.inr ⟨401, "Not authorized!", by simp [ht, h1, hany], by simp [ht, h2, hany]⟩
      | true =>
        exact Or.inl ⟨by simp [ht, h1, hany, sessionClaims], by simp [ht, h2, hany, sessionClaims]⟩

/-- C10 (witness): the token signed for challenge `42`, presented once with
user `adminUser` and once, unchanged, with user `"mallory"`. -/
theorem postLogin_user_independent_witness :
    (adminUser.truthy = true ∧ (JsVal.str "mallory").truthy = true) ∧
    ((postLogin demoCrypto "secret" [⟨"hello exoframe 42", "42"⟩] (.ok "ssh-rsa KEY1")
          (loginBody adminUser (.str "signed") (.str "42"))
        = .ok ⟨200, some (tokenBody (demoCrypto.jwtSign
            (.obj (.cons "loggedIn" (.bool true) (.cons "user" adminUser .nil)))
            "secret" .HS256))⟩ ∧
      postLogin demoCrypto "secret" [⟨"hello exoframe 42", "42"⟩] (.ok "ssh-rsa KEY1")
          (loginBody (.str "mallory") (.str "signed") (.str "42"))
        = .ok ⟨200, some (tokenBody (demoCrypto.jwtSign
            (.obj (.cons "loggedIn" (.bool true) (.cons "user" (.str "mallory") .nil)))
            "secret" .HS256))⟩) ∨
    (∃ code msg,
      postLogin demoCrypto "secret" [⟨"hello exoframe 42", "42"⟩] (.ok "ssh-rsa KEY1")
          (loginBody adminUser (.str "signed") (.str "42"))
        = .ok ⟨code, some (errorBody msg)⟩ ∧
      postLogin demoCrypto "secret" [⟨"hello exoframe 42", "42"⟩] (.ok "ssh-rsa KEY1")
          (loginBody (.str "mallory") (.str "signed") (.str "42"))
        = .ok ⟨code, some (errorBody msg)⟩)) :=
  ⟨⟨by decide, by decide⟩,
    postLogin_user_independent demoCrypto "secret" [⟨"hello exoframe 42", "42"⟩]
      (.ok "ssh-rsa KEY1") adminUser (.str "mallory") (.str "signed") (.str "42")
      (by decide) (by decide)⟩

/-! ## Retiring the previous generation -/

theorem shouldRemove_iff (compareNames : Option String → Option String → Bool)
    (running : List Container) (c : Container) :
    shouldRemove compareNames running c = true ↔
      ∃ pre rc post, running = pre ++ rc :: post ∧
        (∀ p ∈ pre, compareNames (c.label "exoframe.name") (p.label "exoframe.name") = false) ∧
        compareNames (c.label "exoframe.name") (rc.label "exoframe.name") = true ∧
        rc.State = "running" ∧ statusUp rc.Status = true := by
  unfold shouldRemove
  constructor
  · intro h
    cases hf : running.find? (fun runningContainer =>
        compareNames (c.label "exoframe.name") (runningContainer.label "exoframe.name")) with
    | none => simp [hf] at h
    | some rc =>
      simp only [hf, Bool.and_eq_true, beq_iff_eq] at h
      obtain ⟨hp, pre, post, hrun, hpre⟩ := List.find?_eq_some.1 hf
      refine ⟨pre, rc, post, hrun, ?_, hp, h.1, h.2⟩
      intro q hq
      simpa using hpre q hq
  · rintro ⟨pre, rc, post, hrun, hpre, hp, hs, hu⟩
    have hf : running.find? (fun runningContainer =>
        compareNames (c.label "exoframe.name") (runningContainer.label "exoframe.name"))
        = some rc := by
      apply List.find?_eq_some.2
      refine ⟨hp, pre, post, hrun, ?_⟩
      intro q hq
      simp [hpre q hq]
    simp [hf, hs, hu]

theorem shouldRemove_of_exists_not_up (compareNames : Option String → Option String → Bool)
    (running : List Container) (c : Container)
    (h : ∀ rc ∈ running,
      compareNames (c.label "exoframe.name") (rc.label "exoframe.name") = true →
      ¬ (rc.State = "running" ∧ statusUp rc.Status = true)) :
    shouldRemove compareNames running c = false := by
  rw [Bool.eq_false_iff]
  intro hs
  obtain ⟨pre, rc, post, hrun, _, hp, hst, hu⟩ := (shouldRemove_iff _ _ _).1 hs
  exact h rc (by simp [hrun]) hp ⟨hst, hu⟩

/-- C4 (counterexample): one old container `app`; the listing holds two
containers of the same name, user and project, the first restarting, the
second running and up.  Whatever comparator accepts identical names, the old
container is not selected although a matching running, up container is
listed. -/
theorem cleanupPass_exists_counterexample :
    ¬ ∃ compareNames : Option String → Option String → Bool,
      compareNames (some "app") (some "app") = true ∧
      (oldApp ∈ (cleanupPass compareNames false (fun _ => .ok ()) ⟨"admin", "proj", [oldApp]⟩
          (.ok [newStarting, newUp])).toRemove ↔
        ∃ rc ∈ runningOf "admin" "proj" [newStarting, newUp],
          compareNames (oldApp.label "exoframe.name") (rc.label "exoframe.name") = true ∧
          rc.State = "running" ∧ statusUp rc.Status = true) := by
  rintro ⟨compareNames, hcmp, hiff⟩
  have hrun : runningOf "admin" "proj" [newStarting, newUp] = [newStarting, newUp] := by decide
  have hmem := hiff.2 ⟨newUp, by rw [hrun]; simp, hcmp, by decide, by decide⟩
  have hfalse : shouldRemove compareNames [newStarting, newUp] oldApp = false := by
    have h1 : oldApp.label "exoframe.name" = some "app" := by decide
    have h2 : newStarting.label "exoframe.name" = some "app" := by decide
    have h3 : (newStarting.State == "running") = false := by decide
    simp [shouldRemove, List.find?, h1, h2, hcmp, h3]
  simp [cleanupPass, hrun, hfalse] at hmem

theorem cleanupPass_toRemove_eq (compareNames : Option String → Option String → Bool)
    (autoprune : Bool) (removeContainer : Container → Except String Unit)
    (args : CleanupArgs) (containers : List Container) :
    (cleanupPass compareNames autoprune removeContainer args (.ok containers)).toRemove
      = args.existing.filter
          (shouldRemove compareNames (runningOf args.username args.project containers)) := by
  simp only [cleanupPass]
  split <;> rfl

/-- C4 (amended): in one cleanup pass whose listing succeeded, whatever the
removals then do, a container is handed to `removeContainer` exactly when it
is in `existing` and the first container of the listing, among those of the
same user and project, whose `exoframe.name` matches it under `compareNames`
is in state `running` with a status that contains `up` case-insensitively. -/
theorem cleanupPass_toRemove_iff (compareNames : Option String → Option String → Bool)
    (autoprune : Bool) (removeContainer : Container → Except String Unit)
    (args : CleanupArgs) (containers : List Container) (c : Container) :
    c ∈ (cleanupPass compareNames autoprune removeContainer args (.ok containers)).toRemove ↔
      c ∈ args.existing ∧
      ∃ pre rc post, runningOf args.username args.project containers = pre ++ rc :: post ∧
        (∀ p ∈ pre, compareNames (c.label "exoframe.name") (p.label "exoframe.name") = false) ∧
        compareNames (c.label "exoframe.name") (rc.label "exoframe.name") = true ∧
        rc.State = "running" ∧ statusUp rc.Status = true := by
  rw [cleanupPass_toRemove_eq]
  simp only [List.mem_filter, shouldRemove_iff]

/-- An old container that is still running and listed matches its own name:
listed alone, it is selected for removal although no replacement exists. -/
theorem cleanupPass_self_match :
    (cleanupPass (fun a b => a == b) false (fun _ => .ok ()) ⟨"admin", "proj", [oldApp]⟩
      (.ok [oldApp])).toRemove = [oldApp] := by
  decide

theorem settled_iff (r : Except String Unit) : settled r = true ↔ r = .ok () := by
  cases r <;> simp [settled]

theorem cleanupPass_settled (compareNames : Option String → Option String → Bool)
    (autoprune : Bool) (removeContainer : Container → Except String Unit)
    (args : CleanupArgs) (containers : List Container)
    (hok : ∀ c ∈ (cleanupPass compareNames autoprune removeContainer args
      (.ok containers)).toRemove, removeContainer c = .ok ()) :
    cleanupPass compareNames autoprune removeContainer args (.ok containers) =
      ⟨(cleanupPass compareNames autoprune removeContainer args (.ok containers)).toRemove,
        if (cleanupPass compareNames autoprune removeContainer args
            (.ok containers)).toRemove.length ≠ args.existing.length then
          some ⟨args.username, args.project, args.existing.filter (fun c =>
            decide (c.Id ∉ (cleanupPass compareNames autoprune removeContainer args
              (.ok containers)).toRemove.map Container.Id))⟩
        else none,
        autoprune, false⟩ := by
  rw [cleanupPass_toRemove_eq] at hok ⊢
  have hall : (args.existing.filter (shouldRemove compareNames
      (runningOf args.username args.project containers))).all
      (fun c => settled (removeContainer c)) = true := by
    rw [List.all_eq_true]
    intro c hc
    exact (settled_iff _).2 (hok c hc)
  simp only [cleanupPass, hall, if_true]
  congr 1
  split
  · congr 2
    apply List.filter_congr
    intro c _
    rw [Bool.eq_iff_iff]
    simp only [Option.isNone_iff_eq_none, List.find?_eq_none, beq_iff_eq, decide_eq_true_eq,
      List.mem_map, not_exists, not_and]
  · rfl

theorem cleanupPass_rejected (compareNames : Option String → Option String → Bool)
    (autoprune : Bool) (removeContainer : Container → Except String Unit)
    (args : CleanupArgs) (containers : List Container)
    (hbad : ∃ c ∈ (cleanupPass compareNames autoprune removeContainer args
      (.ok containers)).toRemove, ∃ e, removeContainer c = .error e) :
    cleanupPass compareNames autoprune removeContainer args (.ok containers) =
      ⟨(cleanupPass compareNames autoprune removeContainer args (.ok containers)).toRemove,
        none, false, true⟩ := by
  rw [cleanupPass_toRemove_eq] at hbad ⊢
  obtain ⟨c, hc, e, he⟩ := hbad
  have hall : (args.existing.filter (shouldRemove compareNames
      (runningOf args.username args.project containers))).all
      (fun c => settled (removeContainer c)) = false := by
    rw [Bool.eq_false_iff]
    intro h
    have := (List.all_eq_true.1 h) c hc
    simp [settled, he] at this
  simp only [cleanupPass, hall]
  rfl

theorem cleanupPass_all_selected_iff (compareNames : Option String → Option String → Bool)
    (autoprune : Bool) (removeContainer : Container → Except String Unit)
    (args : CleanupArgs) (containers : List Container) :
    (∀ c ∈ args.existing, c ∈ (cleanupPass compareNames autoprune removeContainer args
        (.ok containers)).toRemove) ↔
      (cleanupPass compareNames autoprune removeContainer args (.ok containers)).toRemove.length
        = args.existing.length := by
  rw [cleanupPass_toRemove_eq]
  simp only [List.filter_length_eq_length, List.mem_filter]
  constructor
  · intro h c hc
    exact (h c hc).2
  · intro h c hc
    exact ⟨hc, h c hc⟩

theorem cleanupPass_next_none_of_all (compareNames : Option String → Option String → Bool)
    (autoprune : Bool) (removeContainer : Container → Except String Unit)
    (args : CleanupArgs) (containers : List Container)
    (h : (cleanupPass compareNames autoprune removeContainer args
        (.ok containers)).toRemove.length = args.existing.length) :
    (cleanupPass compareNames autoprune removeContainer args (.ok containers)).next = none := by
  rw [cleanupPass_toRemove_eq] at h
  simp only [cleanupPass]
  split
  · simp [h]
  · rfl

/-- C7 (counterexample): (a) one old container `app` and a listing in which a
matching container is running and up, but listed after a matching container
that is restarting: whatever comparator accepts identical names, the pass does
not remove the old container.  (b) Two old containers, `app` selected and
`api` not, and the removal of `app` rejects: not every container was selected,
yet no further pass is scheduled. -/
theorem cleanupPass_single_pass_counterexample :
    (¬ ∃ compareNames : Option String → Option String → Bool,
      compareNames (some "app") (some "app") = true ∧
      newUp ∈ runningOf "admin" "proj" [newStarting, newUp] ∧
      compareNames (oldApp.label "exoframe.name") (newUp.label "exoframe.name") = true ∧
      newUp.State = "running" ∧ statusUp newUp.Status = true ∧
      (cleanupPass compareNames false (fun _ => .ok ()) ⟨"admin", "proj", [oldApp]⟩
          (.ok [newStarting, newUp])).toRemove = [oldApp]) ∧
    ((cleanupPass (fun a b => a == b) false (fun _ => .error "removal failed")
          ⟨"admin", "proj", [oldApp, oldApi]⟩ (.ok [newUp])).toRemove = [oldApp] ∧
      (cleanupPass (fun a b => a == b) false (fun _ => .error "removal failed")
          ⟨"admin", "proj", [oldApp, oldApi]⟩ (.ok [newUp])).next = none) := by
  constructor
  · rintro ⟨compareNames, hcmp, _, _, _, _, hrem⟩
    have hrun : runningOf "admin" "proj" [newStarting, newUp] = [newStarting, newUp] := by
      decide
    have hfalse : shouldRemove compareNames [newStarting, newUp] oldApp = false := by
      have h1 : oldApp.label "exoframe.name" = some "app" := by decide
      have h2 : newStarting.label "exoframe.name" = some "app" := by decide
      have h3 : (newStarting.State == "running") = false := by decide
      simp [shouldRemove, List.find?, h1, h2, hcmp, h3]
    simp [cleanupPass, hrun, hfalse] at hrem
  · decide

/-- C7 (amended): for one cleanup pass whose listing succeeded, (1) if every
container of `existing` was selected for removal, no further pass is
scheduled; (2) otherwise, if every removal of the pass resolves, one further
pass is scheduled, with the same username and project and with `existing`
restricted to the containers whose `Id` is not the `Id` of a removed one;
(3) if a removal of the pass rejects, the pass is aborted: no further pass and
no prune are scheduled; and (4) so is a pass whose listing rejects, which
removes nothing.  (5) With one existing container `X`, if the first listed
container of that user and project whose name matches `X` is `running` with a
status containing `up`, the pass hands `X` to `removeContainer` and schedules
nothing.  (6) With one existing container `X`, over any sequence of passes
whose listings succeed and hold no container of that user and project that
matches `X` by name and is `running` and `up` (`X` itself counts when it is
listed), nothing is ever removed and the pass still pending has `X` in it. -/
theorem cleanupPass_next (compareNames : Option String → Option String → Bool)
    (autoprune : Bool) (removeContainer : Container → Except String Unit)
    (args : CleanupArgs) (containers : List Container) :
    ((∀ c ∈ args.existing, c ∈ (cleanupPass compareNames autoprune removeContainer args
        (.ok containers)).toRemove) →
      (cleanupPass compareNames autoprune removeContainer args (.ok containers)).next = none) ∧
    ((¬ ∀ c ∈ args.existing, c ∈ (cleanupPass compareNames autoprune removeContainer args
        (.ok containers)).toRemove) →
      (∀ c ∈ (cleanupPass compareNames autoprune removeContainer args
        (.ok containers)).toRemove, removeContainer c = .ok ()) →
      (cleanupPass compareNames autoprune removeContainer args (.ok containers)).next =
        some ⟨args.username, args.project, args.existing.filter (fun c =>
          decide (c.Id ∉ (cleanupPass compareNames autoprune removeContainer args
            (.ok containers)).toRemove.map Container.Id))⟩ ∧
      (cleanupPass compareNames autoprune removeContainer args (.ok containers)).prune
        = autoprune ∧
      (cleanupPass compareNames autoprune removeContainer args (.ok containers)).aborted
        = false) ∧
    ((∃ c ∈ (cleanupPass compareNames autoprune removeContainer args
        (.ok containers)).toRemove, ∃ e, removeContainer c = .error e) →
      (cleanupPass compareNames autoprune removeContainer args (.ok containers)).next = none ∧
      (cleanupPass compareNames autoprune removeContainer args (.ok containers)).prune
        = false ∧
      (cleanupPass compareNames autoprune removeContainer args (.ok containers)).aborted
        = true) ∧
    (∀ e, cleanupPass compareNames autoprune removeContainer args (.error e)
      = ⟨[], none, false, true⟩) ∧
    (∀ X pre newInstance post, args.existing = [X] →
      runningOf args.username args.project containers = pre ++ newInstance :: post →
      (∀ p ∈ pre, compareNames (X.label "exoframe.name") (p.label "exoframe.name") = false) →
      compareNames (X.label "exoframe.name") (newInstance.label "exoframe.name") = true →
      newInstance.State = "running" → statusUp newInstance.Status = true →
      (cleanupPass compareNames autoprune removeContainer args (.ok containers)).toRemove
        = [X] ∧
      (cleanupPass compareNames autoprune removeContainer args (.ok containers)).next = none) ∧
    (∀ X (polls : List Poll), args.existing = [X] →
      (∀ p ∈ polls, ∃ l, p.listContainers = .ok l ∧
        ∀ rc ∈ runningOf args.username args.project l,
          compareNames (X.label "exoframe.name") (rc.label "exoframe.name") = true →
          ¬ (rc.State = "running" ∧ statusUp rc.Status = true)) →
      scheduleCleanup compareNames autoprune args polls = ⟨[], some args, false⟩) := by
  refine ⟨?_, ?_, ?_, ?_, ?_, ?_⟩
  · intro h
    exact cleanupPass_next_none_of_all _ _ _ _ _ ((cleanupPass_all_selected_iff _ _ _ _ _).1 h)
  · intro h hok
    have hne : (cleanupPass compareNames autoprune removeContainer args
        (.ok containers)).toRemove.length ≠ args.existing.length :=
      fun hlen => h ((cleanupPass_all_selected_iff _ _ _ _ _).2 hlen)
    have heq := cleanupPass_settled compareNames autoprune removeContainer args containers hok
    refine ⟨?_, ?_, ?_⟩
    · rw [heq]
      simp only [if_pos hne]
    · rw [heq]
    · rw [heq]
  · intro hbad
    have heq := cleanupPass_rejected compareNames autoprune removeContainer args containers hbad
    refine ⟨?_, ?_, ?_⟩ <;> rw [heq]
  · intro e
    rfl
  · intro X pre newInstance post hex hrun hpre hp hs hu
    have hsel : shouldRemove compareNames
        (runningOf args.username args.project containers) X = true :=
      (shouldRemove_iff _ _ _).2 ⟨pre, newInstance, post, hrun, hpre, hp, hs, hu⟩
    have hrem : (cleanupPass compareNames autoprune removeContainer args
        (.ok containers)).toRemove = [X] := by
      rw [cleanupPass_toRemove_eq]
      simp [hex, hsel]
    refine ⟨hrem, ?_⟩
    apply cleanupPass_next_none_of_all
    rw [hrem, hex]
  · intro X polls hex
    obtain ⟨username, project, existing⟩ := args
    simp only at hex
    subst hex
    induction polls with
    | nil => intro _; rfl
    | cons p ps ih =>
      intro hall
      obtain ⟨l, hl, hno⟩ := hall p (by simp)
      have hsel : shouldRemove compareNames (runningOf username project l) X = false :=
        shouldRemove_of_exists_not_up _ _ _ hno
      have hrem : (cleanupPass compareNames autoprune p.removeContainer
          ⟨username, project, [X]⟩ (.ok l)).toRemove = [] := by
        rw [cleanupPass_toRemove_eq]
        simp [hsel]
      have heq := cleanupPass_settled compareNames autoprune p.removeContainer
        ⟨username, project, [X]⟩ l (by rw [hrem]; intro c hc; cases hc)
      have hnext : (cleanupPass compareNames autoprune p.removeContainer
          ⟨username, project, [X]⟩ (.ok l)).next = some ⟨username, project, [X]⟩ := by
        rw [heq, hrem]
        simp
      have hrest := ih (fun p2 hp2 => hall p2 (by simp [hp2]))
      simp only [scheduleCleanup, hl, hnext, hrem, hrest, List.append_nil]

/-- C7 (witness): the old container `app` with the running, up replacement
listed alone is handed to removal in one pass, which schedules nothing; while
the only listed match is restarting, three passes remove nothing and keep the
old container pending. -/
theorem cleanupPass_next_witness :
    ((cleanupPass (fun a b => a == b) true (fun _ => .ok ()) ⟨"admin", "proj", [oldApp]⟩
          (.ok [newUp])).toRemove = [oldApp] ∧
      (cleanupPass (fun a b => a == b) true (fun _ => .ok ()) ⟨"admin", "proj", [oldApp]⟩
          (.ok [newUp])).next = none) ∧
    scheduleCleanup (fun a b => a == b) true ⟨"admin", "proj", [oldApp]⟩
        [⟨.ok [newStarting], fun _ => .ok ()⟩, ⟨.ok [newStarting], fun _ => .ok ()⟩,
          ⟨.ok [newStarting], fun _ => .ok ()⟩]
      = ⟨[], some ⟨"admin", "proj", [oldApp]⟩, false⟩ :=
  ⟨(cleanupPass_next (fun a b => a == b) true (fun _ => .ok ()) ⟨"admin", "proj", [oldApp]⟩
      [newUp]).2.2.2.2.1
      oldApp [] newUp [] rfl (by decide) (by intro p hp; cases hp) (by decide) (by decide)
      (by decide),
    (cleanupPass_next (fun a b => a == b) true (fun _ => .ok ()) ⟨"admin", "proj", [oldApp]⟩
      [newUp]).2.2.2.2.2
      oldApp [⟨.ok [newStarting], fun _ => .ok ()⟩, ⟨.ok [newStarting], fun _ => .ok ()⟩,
          ⟨.ok [newStarting], fun _ => .ok ()⟩] rfl
      (by
        intro p hp
        simp only [List.mem_cons, List.mem_singleton, List.not_mem_nil, or_false, or_self]
          at hp
        subst hp
        exact ⟨[newStarting], rfl, by decide⟩)⟩

/-! ## The deploy pipeline -/

theorem checkLoop_reject (pre post : List Template) (t : Template) (e : String)
    (hpre : ∀ p ∈ pre, p.checkTemplate = .ok false) (ht : t.checkTemplate = .error e) :
    checkLoop (pre ++ t :: post)
      = (pre.map (fun p => Call.check p.name) ++ [.check t.name], .error e) := by
  induction pre with
  | nil => simp [checkLoop, ht]
  | cons p ps ih =>
    have hp := hpre p (by simp)
    have ih2 := ih (fun q hq => hpre q (by simp [hq]))
    simp [checkLoop, hp, ih2]

theorem checkLoop_reference (templates : List Template)
    (h : ∀ t ∈ templates.takeWhile (fun t => t.checkTemplate != .ok true),
      t.checkTemplate = .ok false) :
    checkLoop templates =
      ((templates.takeWhile (fun t => t.checkTemplate != .ok true)).map
          (fun t => Call.check t.name)
        ++ ((templates.find? (fun t => t.checkTemplate == .ok true)).toList.map
          (fun t => Call.check t.name)),
        .ok (templates.find? (fun t => t.checkTemplate == .ok true))) := by
  induction templates with
  | nil => simp [checkLoop]
  | cons t ts ih =>
    by_cases ht : t.checkTemplate = .ok true
    · simp [checkLoop, ht, List.takeWhile_cons]
    · have hb : (t.checkTemplate != Except.ok true) = true := by simpa using ht
      have hbe : (t.checkTemplate == Except.ok true) = false := by simpa using ht
      have htw : (t :: ts).takeWhile (fun t => t.checkTemplate != .ok true)
          = t :: ts.takeWhile (fun t => t.checkTemplate != .ok true) := by
        rw [List.takeWhile_cons, if_pos hb]
      rw [htw] at h
      have hf := h t (by simp)
      have ih2 := ih (fun q hq => h q (by simp [hq]))
      rw [htw, List.find?_cons, hbe]
      simp [checkLoop, hf, ih2]

theorem hasTemplateName_iff (config : ProjectConfig) :
    hasTemplateName config = true ↔ ∃ name, config.template = some name ∧ name ≠ "" := by
  obtain ⟨template⟩ := config
  cases template with
  | none => simp [hasTemplateName]
  | some name =>
    by_cases hn : name = ""
    · subst hn
      simp [hasTemplateName]
    · have hlen : 0 < name.length :=
        Nat.pos_of_ne_zero (fun h => hn ((length_eq_zero_iff_empty name).1 h))
      simp [hasTemplateName, hn, hlen]

/-- With the config loaded and no consulted predicate rejecting, `deploy` does
what the reference does. -/
theorem deploy_eq_reference (config : ProjectConfig) (templates : List Template) (s : Stream)
    (h : hasTemplateName config = false →
      ∀ t ∈ templates.takeWhile (fun t => t.checkTemplate != .ok true),
        t.checkTemplate = .ok false) :
    deploy (.ok config) templates s = referenceDeploy config templates s := by
  cases hname : hasTemplateName config with
  | true =>
    obtain ⟨name, hcfg, hne⟩ := (hasTemplateName_iff config).1 hname
    have hfind : templates.find? (fun t => some t.name == config.template)
        = templates.find? (fun t => t.name == name) := by
      rw [hcfg]
      congr 1
    have hdep : deploy (.ok config) templates s
        = finishDeploy config s [] (templates.find? (fun t => t.name == name)) := by
      simp only [deploy, hname, if_true]
      rw [hfind]
    have href : resolveReference config templates
        = templates.find? (fun t => t.name == name) := by
      simp only [resolveReference, hcfg, hne, ne_eq, not_false_eq_true, if_true]
    have hchk : referenceChecks config templates = [] := by
      simp only [referenceChecks, hcfg, hne, ne_eq, not_false_eq_true, if_true]
    rw [hdep]
    unfold referenceDeploy
    rw [href, hchk]
    cases templates.find? (fun t => t.name == name) with
    | none => simp [finishDeploy, writeStatus, Stream.end, hcfg]
    | some t => simp [finishDeploy]
  | false =>
    have hloop := checkLoop_reference templates (h hname)
    have hnot : ¬ ∃ name, config.template = some name ∧ name ≠ "" := by
      rw [← hasTemplateName_iff, hname]
      simp
    have href : resolveReference config templates
        = templates.find? (fun t => t.checkTemplate == .ok true) := by
      unfold resolveReference
      cases hcfg : config.template with
      | none => rfl
      | some name =>
        have hn : name = "" := by
          by_contra hn
          exact hnot ⟨name, hcfg, hn⟩
        simp [hn]
    have hchecks : referenceChecks config templates
        = (templates.takeWhile (fun t => t.checkTemplate != .ok true)).map
            (fun t => Call.check t.name)
          ++ ((templates.find? (fun t => t.checkTemplate == .ok true)).toList.map
            (fun t => Call.check t.name)) := by
      unfold referenceChecks
      cases hcfg : config.template with
      | none => rfl
      | some name =>
        have hn : name = "" := by
          by_contra hn
          exact hnot ⟨name, hcfg, hn⟩
        simp [hn]
    simp only [deploy, hname, hloop, referenceDeploy, href, hchecks]
    cases hf : templates.find? (fun t => t.checkTemplate == .ok true) with
    | none => simp [finishDeploy, writeStatus, Stream.end]
    | some t => simp [finishDeploy]

/-- C5 (counterexample): `deploy` rejects, writes no event and does not end
the stream when loading the project config throws, when a `checkTemplate`
predicate rejects, and when the selected template's `executeTemplate`
rejects. -/
theorem deploy_rejects_counterexample :
    deploy (.error "exoframe.json unreadable") [] freshStream
      = ⟨⟨[], false⟩, [], .error "exoframe.json unreadable"⟩ ∧
    deploy (.ok ⟨none⟩) [okTemplate "static" (.error "EACCES")] freshStream
      = ⟨⟨[], false⟩, [.check "static"], .error "EACCES"⟩ ∧
    deploy (.ok ⟨none⟩) [failingExecute] freshStream
      = ⟨⟨[], false⟩, [.check "node", .execute "node"], .error "build failed"⟩ := by
  decide

/-- C5 (amended): the one failure `deploy` turns into a terminal
`level: error` event followed by ending the stream is the failure to find a
template, and `deploy` then resolves (4).  When loading the project config
throws (1) or a consulted `checkTemplate` rejects (2), `deploy` rejects with
that error, writes nothing and does not end the stream; when the selected
template's `executeTemplate` rejects (3), `deploy` rejects with that error and
leaves the stream as `executeTemplate` left it. -/
theorem deploy_failure_paths (templates : List Template) (s : Stream) :
    (∀ e, deploy (.error e) templates s = ⟨s, [], .error e⟩) ∧
    (∀ config pre t post e, hasTemplateName config = false →
      templates = pre ++ t :: post → (∀ p ∈ pre, p.checkTemplate = .ok false) →
      t.checkTemplate = .error e →
      deploy (.ok config) templates s
        = ⟨s, pre.map (fun p => Call.check p.name) ++ [.check t.name], .error e⟩) ∧
    (∀ config t e,
      (hasTemplateName config = false →
        ∀ t ∈ templates.takeWhile (fun t => t.checkTemplate != .ok true),
          t.checkTemplate = .ok false) →
      resolveReference config templates = some t →
      (t.executeTemplate s).2 = .error e →
      (deploy (.ok config) templates s).outcome = .error e ∧
      (deploy (.ok config) templates s).stream = (t.executeTemplate s).1) ∧
    (∀ config,
      (hasTemplateName config = false →
        ∀ t ∈ templates.takeWhile (fun t => t.checkTemplate != .ok true),
          t.checkTemplate = .ok false) →
      resolveReference config templates = none →
      (deploy (.ok config) templates s).outcome = .ok () ∧
      (deploy (.ok config) templates s).stream
        = ⟨s.events ++ [⟨"Build failed! Couldn't find template: "
            ++ templateText config.template ++ "!", "error"⟩], true⟩ ∧
      ∀ name, Call.execute name ∉ (deploy (.ok config) templates s).calls) := by
  refine ⟨?_, ?_, ?_, ?_⟩
  · intro e
    rfl
  · intro config pre t post e hname htpl hpre ht
    subst htpl
    simp [deploy, hname, checkLoop_reject pre post t e hpre ht]
  · intro config t e h href hexec
    rw [deploy_eq_reference config templates s h]
    simp [referenceDeploy, href, hexec]
  · intro config h href
    rw [deploy_eq_reference config templates s h]
    refine ⟨by simp [referenceDeploy, href], by simp [referenceDeploy, href], ?_⟩
    intro name
    simp only [referenceDeploy, href, referenceChecks]
    cases config.template with
    | none => simp
    | some n => by_cases hn : n = "" <;> simp [hn]

/-- C5 (witness): with no template registered the failure is reported on the
stream and `deploy` resolves. -/
theorem deploy_failure_paths_witness :
    (deploy (.ok ⟨some "node"⟩) [] freshStream).outcome = .ok () ∧
    (deploy (.ok ⟨some "node"⟩) [] freshStream).stream
      = ⟨freshStream.events ++ [⟨"Build failed! Couldn't find template: "
          ++ templateText (ProjectConfig.mk (some "node")).template ++ "!", "error"⟩], true⟩ ∧
    ∀ name, Call.execute name ∉ (deploy (.ok ⟨some "node"⟩) [] freshStream).calls :=
  (deploy_failure_paths [] freshStream).2.2.2 ⟨some "node"⟩
    (by intro _ t ht; cases ht) rfl

/-- C6: template resolution inside `deploy` equals the reference.  (1) With
the config loaded and every predicate consulted answering `true` or `false`,
`deploy` makes the calls of the reference and ends as the reference does: a
non-empty `config.template` selects the registered template of that name
without consulting any predicate, otherwise the first template in list order
whose predicate answers `true` is selected and no later predicate is
consulted; in both cases a failed resolution writes one `level: error` event,
ends the stream and executes nothing.  (2) With templates `[A, B, C]` where
`A` and `B` both match, `A` is executed after consulting `A` alone.  (3) With
`config.template` naming `B`, `B` is executed and no predicate is consulted,
whatever the predicate of `A` would answer. -/
theorem deploy_template_resolution (config : ProjectConfig) (templates : List Template)
    (s : Stream) :
    ((hasTemplateName config = false →
        ∀ t ∈ templates.takeWhile (fun t => t.checkTemplate != .ok true),
          t.checkTemplate = .ok false) →
      deploy (.ok config) templates s = referenceDeploy config templates s) ∧
    (∀ A B C : Template, A.checkTemplate = .ok true → B.checkTemplate = .ok true →
      deploy (.ok ⟨none⟩) [A, B, C] s
        = ⟨(A.executeTemplate s).1, [.check A.name, .execute A.name],
            (A.executeTemplate s).2⟩) ∧
    (∀ (A B C : Template) (name : String), name ≠ "" → B.name = name → A.name ≠ name →
      deploy (.ok ⟨some name⟩) [A, B, C] s
        = ⟨(B.executeTemplate s).1, [.execute B.name], (B.executeTemplate s).2⟩) := by
  refine ⟨deploy_eq_reference config templates s, ?_, ?_⟩
  · intro A B C hA _
    simp [deploy, hasTemplateName, checkLoop, hA, finishDeploy]
  · intro A B C name hne hB hA
    have hname : hasTemplateName ⟨some name⟩ = true :=
      (hasTemplateName_iff _).2 ⟨name, rfl, hne⟩
    have hfA : (some A.name == some name) = false := by simpa using hA
    have hfB : (some B.name == some name) = true := by simpa using hB
    simp only [deploy, hname, if_true, List.find?, hfA, hfB, finishDeploy, List.nil_append]

/-- C6 (witness): templates `A`, `B`, `C` with `A` and `B` matching and no
template named in the config: `A` is executed after one predicate call. -/
theorem deploy_template_resolution_witness :
    deploy (.ok ⟨none⟩)
        [okTemplate "A" (.ok true), okTemplate "B" (.ok true), okTemplate "C" (.ok false)]
        freshStream
      = referenceDeploy ⟨none⟩
        [okTemplate "A" (.ok true), okTemplate "B" (.ok true), okTemplate "C" (.ok false)]
        freshStream ∧
    referenceDeploy ⟨none⟩
        [okTemplate "A" (.ok true), okTemplate "B" (.ok true), okTemplate "C" (.ok false)]
        freshStream
      = ⟨⟨[⟨"A started", "info"⟩], true⟩, [.check "A", .execute "A"], .ok ()⟩ :=
  ⟨(deploy_template_resolution ⟨none⟩
      [okTemplate "A" (.ok true), okTemplate "B" (.ok true), okTemplate "C" (.ok false)]
      freshStream).1 (by decide),
    by decide⟩

end Exoframe
